import Mathlib

/-!
Verification of the TradingHub strategy-simulation core against its
specification.  The backend Python engine (market-data aligner,
position sizer, portfolio ledger, strategy engine, output builder) is
not part of this repository snapshot; those components are modelled
here directly from the specification and from the settlement-bar
design document (`OPTION_DATA_CLOSURE_SETTLEMENT_ISSUE.md`).  The
frontend JavaScript (`frontend/src/pages/Dashboard.js`,
`frontend/src/services/simulationService.js`) is embedded from its
source.  Numbers are rationals (the source computes in IEEE floats /
Python floats; all claims here are about exact algebraic structure,
not rounding).
-/

namespace TradingHub

/-! ## Market-data model (spec section 3; OPTION_DATA_CLOSURE_SETTLEMENT_ISSUE.md) -/

/-- A market-data bar as returned by the historical-data provider.
`date` is the bar's timestamp key (e.g. `"20251223 15:30:00"`), the key
on which option bars are matched against underlying/IV bars
(`bar['date']` in the filter of `ibkr_option_service.py` quoted in
`OPTION_DATA_CLOSURE_SETTLEMENT_ISSUE.md` lines 91-97).  The price field
named `open` in the source is called `open_` here because `open` is a
Lean keyword. -/
structure Bar where
  date : String
  open_ : ℚ
  high : ℚ
  low : ℚ
  close : ℚ
  volume : ℚ
deriving DecidableEq

/-- The set of date keys present in the underlying/IV series:
`iv_dates = set(bar['date'] for bar in self.iv_data)`
(OPTION_DATA_CLOSURE_SETTLEMENT_ISSUE.md line 93; a list is used as the
carrier, membership is what matters). -/
def ivDates (underlying : List Bar) : List String :=
  underlying.map (fun b => b.date)

/-- Settlement-bar filter,
`self.data = [bar for bar in self.data if bar['date'] in iv_dates]`
(OPTION_DATA_CLOSURE_SETTLEMENT_ISSUE.md line 95): retain exactly the
option bars whose date key occurs in the underlying/IV series. -/
def filterSettlement (underlying options : List Bar) : List Bar :=
  options.filter (fun b => decide (b.date ∈ ivDates underlying))

/-- Error raised when the two series cannot be reconciled to a 1:1 date
correspondence; carries the two post-filter bar counts. -/
inductive AlignError where
  | dataGapError (underlyingCount optionCount : ℕ)
deriving DecidableEq

/-- Modelled from the spec: `align(underlying_bars, option_bars)`
(spec section 4.1) for the backend aligner, whose Python source
(`backend/services/ibkr_option_service.py`, `market_data.py`) is not in
this repository snapshot.  It drops option bars whose date key is absent
from the underlying/IV series (the settlement artifact), then asserts
bar-count equality between the series, failing with `DataGapError` on a
mismatch — never patching the gap by forward/backward fill — and on
success returns the 1:1 pairing of the two series. -/
def align (underlying options : List Bar) :
    Except AlignError (List (Bar × Bar)) :=
  let filtered := filterSettlement underlying options
  if filtered.length = underlying.length then
    Except.ok (underlying.zip filtered)
  else
    Except.error (AlignError.dataGapError underlying.length filtered.length)

/-! ### Aligner lemmas -/

theorem mem_filterSettlement (u o : List Bar) (b : Bar) :
    b ∈ filterSettlement u o ↔ b ∈ o ∧ b.date ∈ ivDates u := by
  simp [filterSettlement, List.mem_filter]

theorem filterSettlement_append (u o₁ o₂ : List Bar) :
    filterSettlement u (o₁ ++ o₂) =
      filterSettlement u o₁ ++ filterSettlement u o₂ := by
  simp [filterSettlement, List.filter_append]

theorem filterSettlement_self (u : List Bar) :
    filterSettlement u u = u := by
  rw [filterSettlement, List.filter_eq_self]
  intro b hb
  simp [ivDates]
  exact ⟨b, hb, rfl⟩

theorem filterSettlement_eq_nil (u s : List Bar)
    (hs : ∀ b ∈ s, b.date ∉ ivDates u) :
    filterSettlement u s = [] := by
  rw [filterSettlement, List.filter_eq_nil_iff]
  intro b hb
  simpa using hs b hb

/-- C1: the aligner filters by set intersection on date keys — an option
bar is retained exactly when its date key occurs among the underlying/IV
dates (in particular a zero-volume bar with a matching date key is
retained, so the filter is not on `volume == 0` alone), and for an option
series equal to the underlying series followed by per-day zero-volume
`O=H=L=C` settlement bars whose date keys are absent from the underlying
series, `align` succeeds with bar-count equality and never raises
`DataGapError`. -/
theorem align_settlement_filter (u o s : List Bar)
    (hs : ∀ b ∈ s, b.volume = 0 ∧ b.open_ = b.close ∧ b.high = b.close ∧
      b.low = b.close ∧ b.date ∉ ivDates u) :
    (∀ b, b ∈ filterSettlement u o ↔ b ∈ o ∧ b.date ∈ ivDates u) ∧
    (filterSettlement u (u ++ s)).length = u.length ∧
    align u (u ++ s) = Except.ok (u.zip u) := by
  have hfil : filterSettlement u (u ++ s) = u := by
    rw [filterSettlement_append, filterSettlement_self,
      filterSettlement_eq_nil u s (fun b hb => (hs b hb).2.2.2.2),
      List.append_nil]
  refine ⟨fun b => mem_filterSettlement u o b, by rw [hfil], ?_⟩
  rw [align]
  simp [hfil]

/-- C1 witness: a two-bar underlying day plus a trailing zero-volume
settlement bar at a timestamp the underlying does not have. -/
theorem align_settlement_filter_witness :
    (∀ b ∈ [Bar.mk "20251223 16:00:00" 22 22 22 22 0],
      b.volume = 0 ∧ b.open_ = b.close ∧ b.high = b.close ∧
      b.low = b.close ∧
      b.date ∉ ivDates [Bar.mk "20251223 09:30:00" 100 101 99 100 50,
        Bar.mk "20251223 15:30:00" 100 102 100 101 70]) ∧
    align [Bar.mk "20251223 09:30:00" 100 101 99 100 50,
        Bar.mk "20251223 15:30:00" 100 102 100 101 70]
      ([Bar.mk "20251223 09:30:00" 100 101 99 100 50,
        Bar.mk "20251223 15:30:00" 100 102 100 101 70] ++
       [Bar.mk "20251223 16:00:00" 22 22 22 22 0]) =
      Except.ok ([Bar.mk "20251223 09:30:00" 100 101 99 100 50,
        Bar.mk "20251223 15:30:00" 100 102 100 101 70].zip
        [Bar.mk "20251223 09:30:00" 100 101 99 100 50,
        Bar.mk "20251223 15:30:00" 100 102 100 101 70]) := by
  refine ⟨by decide, ?_⟩
  exact (align_settlement_filter
    [Bar.mk "20251223 09:30:00" 100 101 99 100 50,
      Bar.mk "20251223 15:30:00" 100 102 100 101 70]
    []
    [Bar.mk "20251223 16:00:00" 22 22 22 22 0]
    (by decide)).2.2

theorem nodup_dates_filterSettlement (u o : List Bar)
    (ho : (o.map (fun b => b.date)).Nodup) :
    (ivDates (filterSettlement u o)).Nodup := by
  have hsub : List.Sublist (filterSettlement u o) o := List.filter_sublist o
  exact (hsub.map (fun b => b.date)).nodup ho

theorem dates_filterSettlement_subset (u o : List Bar) :
    ivDates (filterSettlement u o) ⊆ ivDates u := by
  intro d hd
  simp only [ivDates, List.mem_map] at hd
  obtain ⟨b, hb, rfl⟩ := hd
  exact ((mem_filterSettlement u o b).1 hb).2

theorem align_error_iff_length (u o : List Bar) :
    (∃ e, align u o = Except.error e) ↔
      ¬ (filterSettlement u o).length = u.length := by
  by_cases h : (filterSettlement u o).length = u.length <;> simp [align, h]

/-- C2: `align` fails with `DataGapError` if and only if, after
settlement-bar filtering, some trading date present in one series is
absent from the other (in either direction); hypotheses `hu`, `ho`
record that bars are uniquely keyed by timestamp within each series
(spec section 3).  On success the result is the untouched 1:1 pairing
of the two series — its left projection is the underlying series, its
right projection is exactly the filtered option series (no bar is
fabricated by forward/backward filling), and the two series carry the
same date keys up to permutation. -/
theorem align_dataGap_iff (u o : List Bar)
    (hu : (ivDates u).Nodup) (ho : (o.map (fun b => b.date)).Nodup) :
    ((∃ e, align u o = Except.error e) ↔
      ∃ d, (d ∈ ivDates u ∧ d ∉ ivDates (filterSettlement u o)) ∨
           (d ∈ ivDates (filterSettlement u o) ∧ d ∉ ivDates u)) ∧
    (∀ ab, align u o = Except.ok ab →
      ab.map Prod.fst = u ∧ ab.map Prod.snd = filterSettlement u o ∧
      List.Perm (ivDates u) (ivDates (filterSettlement u o))) := by
  have hnf : (ivDates (filterSettlement u o)).Nodup :=
    nodup_dates_filterSettlement u o ho
  have hsub : ivDates (filterSettlement u o) ⊆ ivDates u :=
    dates_filterSettlement_subset u o
  have hsp : List.Subperm (ivDates (filterSettlement u o)) (ivDates u) :=
    hnf.subperm hsub
  have hlenf : (ivDates (filterSettlement u o)).length =
      (filterSettlement u o).length := List.length_map _ _
  have hlenu : (ivDates u).length = u.length := List.length_map _ _
  constructor
  · rw [align_error_iff_length]
    constructor
    · intro hne
      have hlt : (ivDates (filterSettlement u o)).length <
          (ivDates u).length := by
        have hle := hsp.length_le
        omega
      by_contra hno
      have hsub' : ivDates u ⊆ ivDates (filterSettlement u o) := by
        intro d hd
        by_contra hd'
        exact hno ⟨d, Or.inl ⟨hd, hd'⟩⟩
      have := (hu.subperm hsub').length_le
      omega
    · rintro ⟨d, hd | hd⟩
      · intro hlen
        have hperm : List.Perm (ivDates (filterSettlement u o)) (ivDates u) :=
          hsp.perm_of_length_le (by omega)
        exact hd.2 (hperm.mem_iff.2 hd.1)
      · exact absurd (hsub hd.1) hd.2
  · intro ab hab
    simp only [align] at hab
    split at hab
    case isTrue hlen =>
      have hab' : ab = u.zip (filterSettlement u o) :=
        (Except.ok.inj hab).symm
      subst hab'
      refine ⟨List.map_fst_zip u _ (by omega), List.map_snd_zip u _ (by omega), ?_⟩
      exact (hsp.perm_of_length_le (by omega)).symm
    case isFalse hlen => simp at hab

/-- Concrete two-day underlying series used in witnesses. -/
def uBars : List Bar :=
  [Bar.mk "20251223 09:30:00" 100 101 99 100 50,
   Bar.mk "20251226 09:30:00" 102 103 101 102 40]

/-- Concrete option series: one bar per underlying date plus one trailing
settlement bar on a timestamp absent from the underlying series. -/
def oBars : List Bar :=
  [Bar.mk "20251223 09:30:00" 5 6 5 6 3,
   Bar.mk "20251226 09:30:00" 7 7 6 7 0,
   Bar.mk "20251226 16:00:00" 8 8 8 8 0]

/-- C2 witness: the gap characterization instantiated at a concrete
uniquely-keyed pair of series. -/
theorem align_dataGap_iff_witness :
    ((∃ e, align uBars oBars = Except.error e) ↔
      ∃ d, (d ∈ ivDates uBars ∧ d ∉ ivDates (filterSettlement uBars oBars)) ∨
           (d ∈ ivDates (filterSettlement uBars oBars) ∧ d ∉ ivDates uBars)) ∧
    (∀ ab, align uBars oBars = Except.ok ab →
      ab.map Prod.fst = uBars ∧
      ab.map Prod.snd = filterSettlement uBars oBars ∧
      List.Perm (ivDates uBars) (ivDates (filterSettlement uBars oBars))) :=
  align_dataGap_iff uBars oBars (by decide) (by decide)

/-! ## Strategy configuration (spec section 3) -/

inductive OptionType where
  | call
  | put
deriving DecidableEq

/-- Modelled from the spec: the immutable `SimulationConfig` input struct
(spec section 3) of the backend engine, which is absent from this
repository snapshot; numeric parameters are rationals. -/
structure SimulationConfig where
  symbol : String
  option_type : OptionType
  initial_balance : ℚ
  call_cost_buffer : ℚ
  contract_size : ℕ
  covered_call_ratio : ℚ
  dip_buy_percent : ℚ
  dip_trigger : ℚ
  initial_position_percent : ℚ
  margin_interest_rate : ℚ
  max_margin_ratio : ℚ
  max_position_size : ℚ
  min_commission : ℚ
  min_strike_distance : ℚ
  min_trade_size : ℚ
  monthly_withdrawal : ℚ
  option_commission : ℚ
  risk_free_rate : ℚ
  stock_commission : ℚ
  volatility_scaling_factor : ℚ
  start_date : String
  end_date : String
deriving DecidableEq

/-- Error taxonomy of the ledger/sizer operations (spec section 7). -/
inductive LedgerError where
  | insufficientCapitalError
  | marginLimitExceeded
  | uncoveredWriteError
deriving DecidableEq

/-- Commission on a stock trade of `qty` shares:
`max(stock_commission × qty, min_commission)` (spec section 4.2). -/
def stockTradeCommission (cfg : SimulationConfig) (qty : ℚ) : ℚ :=
  max (cfg.stock_commission * qty) cfg.min_commission

/-! ## PositionSizer (spec section 4.2) -/

/-- Modelled from the spec: `size_initial_position(cash, spot_price,
initial_position_percent)` of the backend PositionSizer (absent from
this snapshot).  `shares = floor(cash × initial_position_percent /
spot_price)`; `remaining_cash = cash − shares × spot_price −
commission`; commission `= max(stock_commission × shares,
min_commission)`; fails with `InsufficientCapitalError` when the
resulting share count is 0 while `initial_position_percent > 0` and cash
is nonzero but below one share's cost. -/
def size_initial_position (cfg : SimulationConfig)
    (cash spot_price initial_position_percent : ℚ) :
    Except LedgerError (ℤ × ℚ) :=
  let shares : ℤ := ⌊cash * initial_position_percent / spot_price⌋
  if shares = 0 ∧ 0 < initial_position_percent ∧ cash ≠ 0 ∧
      cash < spot_price then
    Except.error LedgerError.insufficientCapitalError
  else
    Except.ok (shares,
      cash - (shares : ℚ) * spot_price -
        stockTradeCommission cfg (shares : ℚ))

/-- C4: the initial position sizer returns
`(floor(cash × pct / spot), cash − shares × spot − commission)` with
commission `max(stock_commission × shares, min_commission)`, failing
with `InsufficientCapitalError` exactly when the resulting share count
is 0 while `pct > 0` and cash is nonzero but below one share's cost; on
the concrete scenario `cash = 200000, pct = 0.6, spot = 300` it returns
`shares = 400` and `remaining_cash = 80000 − commission`. -/
theorem size_initial_position_spec (cfg : SimulationConfig)
    (cash spot pct : ℚ) :
    (size_initial_position cfg cash spot pct =
        Except.error LedgerError.insufficientCapitalError ↔
      (⌊cash * pct / spot⌋ = 0 ∧ 0 < pct ∧ cash ≠ 0 ∧ cash < spot)) ∧
    (¬(⌊cash * pct / spot⌋ = 0 ∧ 0 < pct ∧ cash ≠ 0 ∧ cash < spot) →
      size_initial_position cfg cash spot pct =
        Except.ok (⌊cash * pct / spot⌋,
          cash - (⌊cash * pct / spot⌋ : ℚ) * spot -
            stockTradeCommission cfg (⌊cash * pct / spot⌋ : ℚ))) ∧
    (size_initial_position cfg 200000 300 (6/10) =
      Except.ok (400,
        80000 - stockTradeCommission cfg 400)) := by
  refine ⟨?_, ?_, ?_⟩
  · constructor
    · intro heq
      by_contra h
      simp only [size_initial_position, if_neg h] at heq
      exact Except.noConfusion heq
    · intro h
      simp only [size_initial_position, if_pos h]
  · intro h
    simp only [size_initial_position, if_neg h]
  · have hfl : ⌊(200000 : ℚ) * (6/10) / 300⌋ = 400 := by norm_num
    have h : ¬(⌊(200000 : ℚ) * (6/10) / 300⌋ = 0 ∧ 0 < (6/10 : ℚ) ∧
        (200000 : ℚ) ≠ 0 ∧ (200000 : ℚ) < 300) := by
      rw [hfl]; norm_num
    simp only [size_initial_position, if_neg h, hfl]
    norm_num

/-- Concrete configuration at the documented README defaults, used in
witnesses. -/
def cfgDefault : SimulationConfig where
  symbol := "SPY"
  option_type := OptionType.call
  initial_balance := 200000
  call_cost_buffer := 5/100
  contract_size := 100
  covered_call_ratio := 1
  dip_buy_percent := 4/10
  dip_trigger := 92/100
  initial_position_percent := 6/10
  margin_interest_rate := 6/100
  max_margin_ratio := 2
  max_position_size := 10000
  min_commission := 1
  min_strike_distance := 15/1000
  min_trade_size := 1000
  monthly_withdrawal := 5000
  option_commission := 65/100
  risk_free_rate := 5/100
  stock_commission := 1/100
  volatility_scaling_factor := 15/100
  start_date := "2017-02-01"
  end_date := "2018-02-01"

/-- C4 witness: the sizer's success branch evaluated at the default
configuration and the documented scenario. -/
theorem size_initial_position_spec_witness :
    size_initial_position cfgDefault 200000 300 (6/10) =
      Except.ok (400, 80000 - stockTradeCommission cfgDefault 400) :=
  (size_initial_position_spec cfgDefault 200000 300 (6/10)).2.2

/-! ## Portfolio ledger data model (spec sections 3 and 4.4)

Modelled from the spec: the backend `PortfolioLedger` is absent from
this repository snapshot.  Borrowing happens only through the margin
facility: negative cash is margin debt, and every mutating operation
maintains `margin_used = max 0 (-cash)` (spec invariant 2,
`cash ≥ -margin_used`).  Mark-to-market of the open legs enters
`portfolio_equity` through an explicit `legsVal` argument because the
spec leaves the leg-pricing model open (spec section 9, open
questions). -/

structure OptionContract where
  underlying : String
  expiry_date : String
  strike : ℚ
  option_type : OptionType
  delta : Option ℚ
deriving DecidableEq

/-- An open written/bought contract position (spec section 3). -/
structure OptionLeg where
  contract : OptionContract
  quantity : ℕ
  premium : ℚ
  open_date : String
  close_date : Option String
deriving DecidableEq

/-- Mutable per-run ledger state (spec section 3), with the two running
dollar accumulators the OutputRecordBuilder reads. -/
structure Ledger where
  date : String
  cash : ℚ
  shares : ℚ
  open_legs : List OptionLeg
  margin_used : ℚ
  premiums_received : ℚ
  interest_paid : ℚ
deriving DecidableEq

/-- Portfolio equity: `cash + shares × spot + mark-to-market value of
open legs` (spec section 4.4). -/
def equity (spot legsVal : ℚ) (l : Ledger) : ℚ :=
  l.cash + l.shares * spot + legsVal

/-- `margin_ratio() = margin_used / (cash + shares×spot_price + MTM of
open legs)` (spec section 4.4). -/
def margin_ratio (spot legsVal : ℚ) (l : Ledger) : ℚ :=
  l.margin_used / equity spot legsVal l

/-- Spec invariant 1 in multiplicative form:
`margin_used ≤ max_margin_ratio × portfolio_equity` (equivalent to
`margin_used / portfolio_equity ≤ max_margin_ratio` whenever equity is
positive; see `margin_ratio_le_of_leverageInv`). -/
def LeverageInv (cfg : SimulationConfig) (spot legsVal : ℚ) (l : Ledger) : Prop :=
  l.margin_used ≤ cfg.max_margin_ratio * equity spot legsVal l

instance (cfg : SimulationConfig) (spot legsVal : ℚ) (l : Ledger) :
    Decidable (LeverageInv cfg spot legsVal l) :=
  inferInstanceAs (Decidable (_ ≤ _))

/-- Structured trade events (spec section 4.6 tagged variants). -/
inductive TradeEvent where
  | initialBuy (qty price commission : ℚ)
  | dipBuy (qty price commission : ℚ)
  | write (qty : ℕ) (premium credit : ℚ)
  | close (qty : ℕ) (cost : ℚ)
  | assign (qty : ℕ) (cost : ℚ)
  | withdrawal (requested actual : ℚ)
  | interestAccrual (amount : ℚ)
  | skipped (reason : String)
deriving DecidableEq

/-- Deterministic rendering of one structured trade event into the
human-readable `Trading_Log` text (spec section 4.6: log text is
rendered from structured events, never parsed back). -/
def renderTradeEvent : TradeEvent → String
  | TradeEvent.initialBuy qty price _ =>
      "initial buy " ++ (toString qty ++ (" shares at $" ++ toString price))
  | TradeEvent.dipBuy qty price _ =>
      "dip buy " ++ (toString qty ++ (" shares at $" ++ toString price))
  | TradeEvent.write qty _ credit =>
      "write " ++ (toString qty ++ (" calls, credit: $" ++ toString credit))
  | TradeEvent.close qty cost =>
      "close " ++ (toString qty ++ (" calls, cost: $" ++ toString cost))
  | TradeEvent.assign qty cost =>
      "assigned " ++ (toString qty ++ (" calls, cost: $" ++ toString cost))
  | TradeEvent.withdrawal req act =>
      "withdrawal requested $" ++ (toString req ++ (", withdrew $" ++ toString act))
  | TradeEvent.interestAccrual amt => "interest accrued $" ++ toString amt
  | TradeEvent.skipped reason => "skipped: " ++ reason

/-- One day's `Trading_Log`: the day's rendered events joined in order. -/
def renderTradingLog (evts : List TradeEvent) : String :=
  String.intercalate "; " (evts.map renderTradeEvent)

/-- Substring test on character lists (used to state that a log entry
contains a tag such as "assigned"). -/
def strHasSub : List Char → List Char → Bool
  | [], pat => pat.isEmpty
  | c :: t, pat => pat.isPrefixOf (c :: t) || strHasSub t pat

/-- Substring test on strings. -/
def containsSub (s pat : String) : Bool :=
  strHasSub s.toList pat.toList

/-! ## PortfolioLedger operations (spec section 4.4) -/

/-- The post-trade ledger of a share purchase: debit
`qty × price + commission` from cash, add the shares, refresh margin
debt. -/
def buyLedger (cfg : SimulationConfig) (qty price : ℚ) (l : Ledger) : Ledger :=
  let newCash := l.cash - qty * price - stockTradeCommission cfg qty
  { l with cash := newCash, shares := l.shares + qty,
           margin_used := max 0 (-newCash) }

/-- Modelled from the spec: `buy_shares(qty, price)` — debits cash +
commission; fails with `MarginLimitExceeded`, leaving the ledger
untouched (no partial fill), when post-trade leverage would exceed
`max_margin_ratio`.  `isInitial` selects the InitialBuy/DipBuy event
tag. -/
def buy_shares (cfg : SimulationConfig) (spot legsVal qty price : ℚ)
    (isInitial : Bool) (l : Ledger) :
    Except LedgerError (TradeEvent × Ledger) :=
  let l' := buyLedger cfg qty price l
  if LeverageInv cfg spot legsVal l' then
    Except.ok
      ((if isInitial then
          TradeEvent.initialBuy qty price (stockTradeCommission cfg qty)
        else
          TradeEvent.dipBuy qty price (stockTradeCommission cfg qty)), l')
  else
    Except.error LedgerError.marginLimitExceeded

/-- Total option quantity covered by open legs, in contracts. -/
def coveredQtyContracts (l : Ledger) : ℕ :=
  (l.open_legs.map (fun leg => leg.quantity)).sum

/-- Modelled from the spec: `write_call(contract, qty, premium)` —
credits `premium × qty × contract_size − option_commission`; requires
sufficient covered shares (spec invariant 3) else fails with
`UncoveredWriteError`. -/
def writeLedger (cfg : SimulationConfig) (contract : OptionContract)
    (qty : ℕ) (premium : ℚ) (date : String) (l : Ledger) : Ledger :=
  let credit := premium * (qty : ℚ) * (cfg.contract_size : ℚ) -
    cfg.option_commission
  { l with cash := l.cash + credit,
           margin_used := max 0 (-(l.cash + credit)),
           open_legs := OptionLeg.mk contract qty premium date none ::
             l.open_legs,
           premiums_received := l.premiums_received + credit }

def write_call (cfg : SimulationConfig) (contract : OptionContract)
    (qty : ℕ) (premium : ℚ) (date : String) (l : Ledger) :
    Except LedgerError (TradeEvent × Ledger) :=
  if l.shares * cfg.covered_call_ratio <
      ((coveredQtyContracts l + qty : ℕ) : ℚ) * (cfg.contract_size : ℚ) then
    Except.error LedgerError.uncoveredWriteError
  else
    Except.ok (TradeEvent.write qty premium
        (premium * (qty : ℚ) * (cfg.contract_size : ℚ) -
          cfg.option_commission),
      writeLedger cfg contract qty premium date l)

/-- Modelled from the spec: `accrue_daily_interest()` —
`margin_used × margin_interest_rate / 365`, debited from cash,
increasing margin debt if cash is insufficient. -/
def accrue_daily_interest (cfg : SimulationConfig) (l : Ledger) :
    ℚ × Ledger :=
  let interest := l.margin_used * cfg.margin_interest_rate / 365
  let newCash := l.cash - interest
  (interest,
    { l with cash := newCash, margin_used := max 0 (-newCash),
             interest_paid := l.interest_paid + interest })

/-- Modelled from the spec: `close_or_assign(leg, closing_price_or_none)`
— at expiry (`none`), an in-the-money option is assigned: removes
`qty × contract_size` shares and credits strike proceeds minus the
`call_cost_buffer` haircut (the exact haircut formula is spec-open; it
is modelled as `call_cost_buffer × strike × qty × contract_size`, and the
logged assignment cost as the market shortfall plus the haircut);
otherwise the leg expires worthless, and with a closing price (`some p`)
the leg is bought back at `p` plus commission. -/
def close_or_assign (cfg : SimulationConfig) (spot : ℚ) (leg : OptionLeg)
    (closing_price : Option ℚ) (l : Ledger) : TradeEvent × Ledger :=
  let qcs : ℚ := (leg.quantity : ℚ) * (cfg.contract_size : ℚ)
  let legsRemaining := l.open_legs.erase leg
  match closing_price with
  | none =>
    let itm : Bool :=
      match leg.contract.option_type with
      | OptionType.call => decide (leg.contract.strike < spot)
      | OptionType.put => decide (spot < leg.contract.strike)
    if itm then
      let haircut := cfg.call_cost_buffer * leg.contract.strike * qcs
      let newCash := l.cash + (leg.contract.strike * qcs - haircut)
      (TradeEvent.assign leg.quantity
          ((spot - leg.contract.strike) * qcs + haircut),
        { l with cash := newCash, shares := l.shares - qcs,
                 margin_used := max 0 (-newCash),
                 open_legs := legsRemaining })
    else
      (TradeEvent.close leg.quantity 0, { l with open_legs := legsRemaining })
  | some p =>
    let cost := p * qcs + cfg.option_commission
    let newCash := l.cash - cost
    (TradeEvent.close leg.quantity cost,
      { l with cash := newCash, margin_used := max 0 (-newCash),
               open_legs := legsRemaining })

/-- The post-state of a fully honoured withdrawal: debit the amount,
borrowing any shortfall as margin debt. -/
def withdrawFull (amount : ℚ) (l : Ledger) : Ledger :=
  { l with cash := l.cash - amount, margin_used := max 0 (-(l.cash - amount)) }

/-- Modelled from the spec: `apply_withdrawal(amount)` — debits `amount`
from cash; if cash is insufficient and margin headroom exists the
shortfall is borrowed; with no headroom the withdrawal degrades to a
partial (available cash only) or skipped withdrawal instead of violating
the leverage invariant.  The operation is total: it never aborts the
run. -/
def apply_withdrawal (cfg : SimulationConfig) (spot legsVal amount : ℚ)
    (l : Ledger) : TradeEvent × Ledger :=
  if amount ≤ l.cash then
    (TradeEvent.withdrawal amount amount, withdrawFull amount l)
  else if LeverageInv cfg spot legsVal (withdrawFull amount l) then
    (TradeEvent.withdrawal amount amount, withdrawFull amount l)
  else if 0 < l.cash then
    (TradeEvent.withdrawal amount l.cash,
      { l with cash := 0, margin_used := 0 })
  else
    (TradeEvent.withdrawal amount 0, l)

/-- The fresh ledger a run starts from. -/
def ledger0 (cfg : SimulationConfig) : Ledger :=
  { date := cfg.start_date, cash := cfg.initial_balance, shares := 0,
    open_legs := [], margin_used := 0, premiums_received := 0,
    interest_paid := 0 }

/-! ### Helper lemmas -/

theorem isPrefixOf_append_self (pat r : List Char) :
    pat.isPrefixOf (pat ++ r) = true := by
  induction pat with
  | nil => cases r <;> rfl
  | cons c t ih => simp [List.isPrefixOf, ih]

theorem strHasSub_nil (s : List Char) : strHasSub s [] = true := by
  induction s with
  | nil => rfl
  | cons c t ih => simp [strHasSub, List.isPrefixOf]

theorem strHasSub_append_self (pat r : List Char) :
    strHasSub (pat ++ r) pat = true := by
  cases pat with
  | nil => simpa using strHasSub_nil r
  | cons c t =>
    have h := isPrefixOf_append_self (c :: t) r
    simp only [List.cons_append] at h
    simp [strHasSub, h]

theorem containsSub_render_assign (q : ℕ) (cost : ℚ) :
    containsSub (renderTradeEvent (TradeEvent.assign q cost)) "assigned" =
      true := by
  have h : (renderTradeEvent (TradeEvent.assign q cost)).toList =
      "assigned".toList ++
        (' ' :: (toString q ++ (" calls, cost: $" ++ toString cost)).toList) :=
    rfl
  rw [containsSub, h]
  exact strHasSub_append_self _ _

/-- Mark-to-market of the open (written) legs: minus the intrinsic
value owed on each written call. -/
def legsMTM (cfg : SimulationConfig) (spot : ℚ) (legs : List OptionLeg) : ℚ :=
  -(legs.map (fun leg => (leg.quantity : ℚ) * (cfg.contract_size : ℚ) *
      max 0 (spot - leg.contract.strike))).sum

/-- C5: `apply_withdrawal` debits the requested amount from cash
whenever cash covers it, and when cash is insufficient but margin
headroom exists it borrows the shortfall (the full amount is still
debited) rather than failing or skipping; when no headroom exists it
degrades to a partial or skipped withdrawal whose post-state still
satisfies the leverage invariant.  The operation is total — it never
aborts the run. -/
theorem apply_withdrawal_spec (cfg : SimulationConfig)
    (spot legsVal amount : ℚ) (l : Ledger)
    (hmax : 0 ≤ cfg.max_margin_ratio)
    (hassets : 0 ≤ l.shares * spot + legsVal)
    (hamt : 0 < amount)
    (hinv : LeverageInv cfg spot legsVal l) :
    ((amount ≤ l.cash ∨
        LeverageInv cfg spot legsVal (withdrawFull amount l)) →
      apply_withdrawal cfg spot legsVal amount l =
        (TradeEvent.withdrawal amount amount, withdrawFull amount l) ∧
      (withdrawFull amount l).cash = l.cash - amount) ∧
    (l.cash < amount →
      ¬ LeverageInv cfg spot legsVal (withdrawFull amount l) →
      ∃ actual, actual < amount ∧
        (apply_withdrawal cfg spot legsVal amount l).1 =
          TradeEvent.withdrawal amount actual ∧
        LeverageInv cfg spot legsVal
          (apply_withdrawal cfg spot legsVal amount l).2) := by
  constructor
  · rintro (hcase | hcase)
    · rw [apply_withdrawal, if_pos hcase]
      exact ⟨rfl, rfl⟩
    · by_cases hc : amount ≤ l.cash
      · rw [apply_withdrawal, if_pos hc]
        exact ⟨rfl, rfl⟩
      · rw [apply_withdrawal, if_neg hc, if_pos hcase]
        exact ⟨rfl, rfl⟩
  · intro hcash hnohead
    have hc : ¬ amount ≤ l.cash := not_le.mpr hcash
    rw [apply_withdrawal, if_neg hc, if_neg hnohead]
    by_cases hpos : 0 < l.cash
    · rw [if_pos hpos]
      refine ⟨l.cash, hcash, rfl, ?_⟩
      have h0 : (0:ℚ) ≤ cfg.max_margin_ratio * (l.shares * spot + legsVal) :=
        mul_nonneg hmax hassets
      simpa [LeverageInv, equity] using h0
    · rw [if_neg hpos]
      exact ⟨0, hamt, rfl, hinv⟩

/-- A ledger holding 2000 shares with $1000 cash, used in the C5
witness: cash is below the $5000 withdrawal but headroom is ample. -/
def ledgerW : Ledger :=
  { date := "2017-03-01", cash := 1000, shares := 2000, open_legs := [],
    margin_used := 0, premiums_received := 0, interest_paid := 0 }

/-- C5 witness: with cash short of the scheduled withdrawal and
headroom available, the full amount is debited (shortfall borrowed). -/
theorem apply_withdrawal_spec_witness :
    apply_withdrawal cfgDefault 100 0 5000 ledgerW =
      (TradeEvent.withdrawal 5000 5000, withdrawFull 5000 ledgerW) ∧
    (withdrawFull 5000 ledgerW).cash = ledgerW.cash - 5000 :=
  (apply_withdrawal_spec cfgDefault 100 0 5000 ledgerW
    (by norm_num [cfgDefault])
    (by norm_num [ledgerW])
    (by norm_num)
    (by norm_num [LeverageInv, equity, ledgerW, cfgDefault])).1
    (Or.inr (by
      rw [LeverageInv]
      norm_num [equity, withdrawFull, ledgerW, cfgDefault, max_def]))

/-! ### C6: in-the-money assignment at expiry -/

/-- C6: an in-the-money call leg at expiry is assigned — exactly
`qty × contract_size` shares are removed from the ledger, strike
proceeds minus the `call_cost_buffer` haircut are credited to cash, and
the emitted event is an "assigned" log entry carrying a non-negative
cost figure. -/
theorem close_or_assign_itm (cfg : SimulationConfig) (spot : ℚ)
    (leg : OptionLeg) (l : Ledger)
    (hcall : leg.contract.option_type = OptionType.call)
    (hitm : leg.contract.strike < spot)
    (hbuf : 0 ≤ cfg.call_cost_buffer)
    (hstrike : 0 ≤ leg.contract.strike) :
    (close_or_assign cfg spot leg none l).2.shares =
      l.shares - (leg.quantity : ℚ) * (cfg.contract_size : ℚ) ∧
    (close_or_assign cfg spot leg none l).2.cash =
      l.cash + (leg.contract.strike *
          ((leg.quantity : ℚ) * (cfg.contract_size : ℚ)) -
        cfg.call_cost_buffer * leg.contract.strike *
          ((leg.quantity : ℚ) * (cfg.contract_size : ℚ))) ∧
    ∃ cost,
      (close_or_assign cfg spot leg none l).1 =
        TradeEvent.assign leg.quantity cost ∧
      0 ≤ cost ∧
      containsSub
        (renderTradeEvent ((close_or_assign cfg spot leg none l).1))
        "assigned" = true := by
  have hq : (0:ℚ) ≤ (leg.quantity : ℚ) * (cfg.contract_size : ℚ) := by
    positivity
  have hred : close_or_assign cfg spot leg none l =
      (TradeEvent.assign leg.quantity
        ((spot - leg.contract.strike) *
            ((leg.quantity : ℚ) * (cfg.contract_size : ℚ)) +
          cfg.call_cost_buffer * leg.contract.strike *
            ((leg.quantity : ℚ) * (cfg.contract_size : ℚ))),
        { l with
          cash := l.cash + (leg.contract.strike *
              ((leg.quantity : ℚ) * (cfg.contract_size : ℚ)) -
            cfg.call_cost_buffer * leg.contract.strike *
              ((leg.quantity : ℚ) * (cfg.contract_size : ℚ))),
          shares := l.shares -
            (leg.quantity : ℚ) * (cfg.contract_size : ℚ),
          margin_used := max 0 (-(l.cash + (leg.contract.strike *
              ((leg.quantity : ℚ) * (cfg.contract_size : ℚ)) -
            cfg.call_cost_buffer * leg.contract.strike *
              ((leg.quantity : ℚ) * (cfg.contract_size : ℚ))))),
          open_legs := l.open_legs.erase leg }) := by
    simp only [close_or_assign, hcall, decide_eq_true hitm, if_true]
  refine ⟨by rw [hred], by rw [hred], ?_⟩
  refine ⟨(spot - leg.contract.strike) *
      ((leg.quantity : ℚ) * (cfg.contract_size : ℚ)) +
    cfg.call_cost_buffer * leg.contract.strike *
      ((leg.quantity : ℚ) * (cfg.contract_size : ℚ)), by rw [hred], ?_, ?_⟩
  · exact add_nonneg (mul_nonneg (sub_nonneg.mpr hitm.le) hq)
      (mul_nonneg (mul_nonneg hbuf hstrike) hq)
  · rw [hred]
    exact containsSub_render_assign _ _

/-- A three-contract in-the-money call leg used in the C6 witness. -/
def legITM : OptionLeg where
  contract :=
    { underlying := "SPY"
      expiry_date := "2017-03-17"
      strike := 110
      option_type := OptionType.call
      delta := none }
  quantity := 3
  premium := 2
  open_date := "2017-02-15"
  close_date := none

/-- C6 witness: the assignment theorem at spot 120 against the default
configuration. -/
theorem close_or_assign_itm_witness :
    (close_or_assign cfgDefault 120 legITM none (ledger0 cfgDefault)).2.shares =
      (ledger0 cfgDefault).shares -
        (legITM.quantity : ℚ) * (cfgDefault.contract_size : ℚ) ∧
    (close_or_assign cfgDefault 120 legITM none (ledger0 cfgDefault)).2.cash =
      (ledger0 cfgDefault).cash + (legITM.contract.strike *
          ((legITM.quantity : ℚ) * (cfgDefault.contract_size : ℚ)) -
        cfgDefault.call_cost_buffer * legITM.contract.strike *
          ((legITM.quantity : ℚ) * (cfgDefault.contract_size : ℚ))) ∧
    ∃ cost,
      (close_or_assign cfgDefault 120 legITM none (ledger0 cfgDefault)).1 =
        TradeEvent.assign legITM.quantity cost ∧
      0 ≤ cost ∧
      containsSub
        (renderTradeEvent
          ((close_or_assign cfgDefault 120 legITM none (ledger0 cfgDefault)).1))
        "assigned" = true :=
  close_or_assign_itm cfgDefault 120 legITM (ledger0 cfgDefault)
    rfl
    (by norm_num [legITM])
    (by norm_num [cfgDefault])
    (by norm_num [legITM])

/-! ## OutputRecordBuilder (spec sections 3, 4.6 and 6) -/

/-- A JSON-like field value of the emitted record. -/
inductive JsonValue where
  | num (q : ℚ)
  | str (s : String)
deriving DecidableEq

/-- Modelled from the spec: the contractual output record (spec
sections 3 and 6) with exactly the canonical fields. -/
structure DailyRecord where
  Portfolio_Value : ℚ
  spy_value : ℚ
  Margin_Ratio : ℚ
  Cash_Balance : ℚ
  Premiums_Received : ℚ
  Interest_Paid : ℚ
  Trading_Log : String
deriving DecidableEq

/-- Modelled from the spec: the OutputRecordBuilder assembles the daily
record directly from ledger state after the day's transitions (spec
section 4.6); monetary fields are the ledger's dollar accumulators. -/
def buildDailyRecord (spot legsVal : ℚ) (l : Ledger)
    (evts : List TradeEvent) : DailyRecord where
  Portfolio_Value := equity spot legsVal l
  spy_value := spot
  Margin_Ratio := margin_ratio spot legsVal l
  Cash_Balance := l.cash
  Premiums_Received := l.premiums_received
  Interest_Paid := l.interest_paid
  Trading_Log := renderTradingLog evts

/-- The serialized field list of a `DailyRecord` — the shape a JSON
consumer observes, in canonical order. -/
def recordFields (r : DailyRecord) : List (String × JsonValue) :=
  [("Portfolio_Value", JsonValue.num r.Portfolio_Value),
   ("spy_value", JsonValue.num r.spy_value),
   ("Margin_Ratio", JsonValue.num r.Margin_Ratio),
   ("Cash_Balance", JsonValue.num r.Cash_Balance),
   ("Premiums_Received", JsonValue.num r.Premiums_Received),
   ("Interest_Paid", JsonValue.num r.Interest_Paid),
   ("Trading_Log", JsonValue.str r.Trading_Log)]

/-- C7: every emitted `DailyRecord` carries exactly the canonical field
names `Portfolio_Value, spy_value, Margin_Ratio, Cash_Balance,
Premiums_Received, Interest_Paid, Trading_Log` — `Interest_Paid` under
that single name and never `Interests_Paid` — and the monetary fields
are the ledger's dollar accumulators: in particular a written call
credits `premium × qty × contract_size − option_commission` dollars
(not a per-contract fraction) into `Premiums_Received`, so no consumer
needs field-name fallbacks, rescaling, or log re-parsing. -/
theorem dailyRecord_schema (spot legsVal : ℚ) (l : Ledger)
    (evts : List TradeEvent) (cfg : SimulationConfig)
    (contract : OptionContract) (qty : ℕ) (premium : ℚ) (date : String) :
    (recordFields (buildDailyRecord spot legsVal l evts)).map Prod.fst =
      ["Portfolio_Value", "spy_value", "Margin_Ratio", "Cash_Balance",
       "Premiums_Received", "Interest_Paid", "Trading_Log"] ∧
    "Interest_Paid" ∈
      (recordFields (buildDailyRecord spot legsVal l evts)).map Prod.fst ∧
    "Interests_Paid" ∉
      (recordFields (buildDailyRecord spot legsVal l evts)).map Prod.fst ∧
    (∀ e l', write_call cfg contract qty premium date l = Except.ok (e, l') →
      l'.premiums_received = l.premiums_received +
        (premium * (qty : ℚ) * (cfg.contract_size : ℚ) -
          cfg.option_commission)) ∧
    (buildDailyRecord spot legsVal l evts).Interest_Paid = l.interest_paid ∧
    (buildDailyRecord spot legsVal l evts).Premiums_Received =
      l.premiums_received := by
  have hkeys : (recordFields (buildDailyRecord spot legsVal l evts)).map
      Prod.fst =
      ["Portfolio_Value", "spy_value", "Margin_Ratio", "Cash_Balance",
       "Premiums_Received", "Interest_Paid", "Trading_Log"] := rfl
  refine ⟨hkeys, ?_, ?_, ?_, rfl, rfl⟩
  · rw [hkeys]
    decide
  · rw [hkeys]
    decide
  · intro e l' hok
    simp only [write_call] at hok
    split at hok
    case isTrue h => exact absurd hok (by simp)
    case isFalse h =>
      have hl' : l' = writeLedger cfg contract qty premium date l :=
        (congrArg Prod.snd (Except.ok.inj hok)).symm
      subst hl'
      simp [writeLedger]

/-- C7 witness: a concrete covered write credits the dollar premium into
the `Premiums_Received` accumulator. -/
theorem dailyRecord_schema_witness :
    (writeLedger cfgDefault legITM.contract 1 2 "2017-03-01"
        ledgerW).premiums_received =
      ledgerW.premiums_received +
        (2 * ((1 : ℕ) : ℚ) * (cfgDefault.contract_size : ℚ) -
          cfgDefault.option_commission) := by
  have hcov : ¬ (ledgerW.shares * cfgDefault.covered_call_ratio <
      ((coveredQtyContracts ledgerW + 1 : ℕ) : ℚ) *
        (cfgDefault.contract_size : ℚ)) := by
    norm_num [ledgerW, cfgDefault, coveredQtyContracts]
  have hok : write_call cfgDefault legITM.contract 1 2 "2017-03-01" ledgerW =
      Except.ok (TradeEvent.write 1 2
          (2 * ((1 : ℕ) : ℚ) * (cfgDefault.contract_size : ℚ) -
            cfgDefault.option_commission),
        writeLedger cfgDefault legITM.contract 1 2 "2017-03-01" ledgerW) := by
    rw [write_call, if_neg hcov]
  exact (dailyRecord_schema 100 0 ledgerW [] cfgDefault legITM.contract 1 2
    "2017-03-01").2.2.2.1 _ _ hok

/-! ## StrategyEngine (spec section 4.5)

Modelled from the spec: the backend engine is absent from this
snapshot.  Where the spec leaves parameters open the model documents its
choice: mark-to-market of written legs uses intrinsic value, the
contract-selection rank uses strike closeness (no delta data in
`SimulationConfig`), and `recent_high` is the running maximum of closes
(lookback window unconfigured). -/

/-- Modelled from the spec: `select_contract(chain, spot_price, date,
config)` (spec section 4.3) — filters to contracts at least
`min_strike_distance` away from spot (relative), ranks by strike
closeness, returns `none` (a no-op, not an error) when no candidate
qualifies. -/
def select_contract (cfg : SimulationConfig) (chain : List OptionContract)
    (spot : ℚ) : Option OptionContract :=
  let eligible := chain.filter (fun c =>
    decide (cfg.min_strike_distance ≤ |c.strike - spot| / spot))
  eligible.foldl (fun best c =>
    match best with
    | none => some c
    | some b => if |c.strike - spot| < |b.strike - spot| then some c
        else some b) none

/-- One trading day's aligned market input to the engine. -/
structure DayInput where
  date : String
  spot : ℚ
  isWithdrawalDate : Bool
  isRollDay : Bool
  chain : List OptionContract
  optionPremium : ℚ
deriving DecidableEq

/-- Engine state carried across days. -/
structure EngineState where
  ledger : Ledger
  isFirstDay : Bool
  recentHigh : ℚ
deriving DecidableEq

/-- Modelled from the spec: one day of the fixed transition order (spec
section 4.5): (1) accrue margin interest, (2) first-day position
sizing, (3) scheduled withdrawal, (4) roll-day covered write sized by
`covered_call_ratio`, (5) expiry close/assign, (6) dip buy when
`close ≤ dip_trigger × recent_high` and idle cash exceeds
`min_trade_size`, (7) emit the `DailyRecord`.  Recoverable conditions
degrade to skip events; `InsufficientCapitalError` on day one is
fatal. -/
def stepDay (cfg : SimulationConfig) (st : EngineState) (d : DayInput) :
    Except LedgerError (EngineState × DailyRecord) := do
  let recentHigh := max st.recentHigh d.spot
  let mut evts : List TradeEvent := []
  let mut l := st.ledger
  let acc := accrue_daily_interest cfg l
  l := acc.2
  evts := evts ++ [TradeEvent.interestAccrual acc.1]
  if st.isFirstDay then
    match size_initial_position cfg l.cash d.spot
        cfg.initial_position_percent with
    | Except.error e => throw e
    | Except.ok (sh, _) =>
      match buy_shares cfg d.spot (legsMTM cfg d.spot l.open_legs)
          (sh : ℚ) d.spot true l with
      | Except.ok (e, l') =>
        l := l'
        evts := evts ++ [e]
      | Except.error _ =>
        evts := evts ++ [TradeEvent.skipped "initial buy margin limit"]
  if d.isWithdrawalDate then
    let w := apply_withdrawal cfg d.spot (legsMTM cfg d.spot l.open_legs)
      cfg.monthly_withdrawal l
    l := w.2
    evts := evts ++ [w.1]
  if d.isRollDay && l.open_legs.isEmpty then
    match select_contract cfg d.chain d.spot with
    | none => evts := evts ++ [TradeEvent.skipped "no suitable contract"]
    | some c =>
      let q : ℤ := ⌊l.shares * cfg.covered_call_ratio /
        (cfg.contract_size : ℚ)⌋
      if 0 < q then
        match write_call cfg c q.toNat d.optionPremium d.date l with
        | Except.ok (e, l') =>
          l := l'
          evts := evts ++ [e]
        | Except.error _ =>
          evts := evts ++ [TradeEvent.skipped "uncovered write"]
      else
        evts := evts ++ [TradeEvent.skipped "position below one contract"]
  for leg in l.open_legs.filter
      (fun leg => leg.contract.expiry_date == d.date) do
    let r := close_or_assign cfg d.spot leg none l
    l := r.2
    evts := evts ++ [r.1]
  if d.spot ≤ cfg.dip_trigger * recentHigh ∧
      cfg.min_trade_size < max 0 l.cash then
    let q : ℤ := ⌊cfg.dip_buy_percent * max 0 l.cash / d.spot⌋
    if 0 < q then
      match buy_shares cfg d.spot (legsMTM cfg d.spot l.open_legs)
          (q : ℚ) d.spot false l with
      | Except.ok (e, l') =>
        l := l'
        evts := evts ++ [e]
      | Except.error _ =>
        evts := evts ++ [TradeEvent.skipped "dip buy margin limit"]
  let out := buildDailyRecord d.spot (legsMTM cfg d.spot l.open_legs) l evts
  pure ({ ledger := l, isFirstDay := false, recentHigh := recentHigh }, out)

/-- Modelled from the spec: the whole run — a strictly sequential fold
of `stepDay` over the materialized, aligned day inputs, emitting one
`DailyRecord` per trading day.  The run takes no input other than the
configuration and the day stream. -/
def runSimulation (cfg : SimulationConfig) (days : List DayInput) :
    Except LedgerError (List (String × DailyRecord)) := do
  let mut st : EngineState :=
    { ledger := ledger0 cfg, isFirstDay := true, recentHigh := 0 }
  let mut out : List (String × DailyRecord) := []
  for d in days do
    let r ← stepDay cfg st d
    st := r.1
    out := out ++ [(d.date, r.2)]
  pure out

/-- C8: the simulation is deterministic — `runSimulation` is a pure
synchronous function of the configuration and the materialized bar
stream alone, so two runs given identical inputs produce identical
`DailyRecord` sequences. -/
theorem runSimulation_deterministic (cfg₁ cfg₂ : SimulationConfig)
    (days₁ days₂ : List DayInput)
    (hcfg : cfg₁ = cfg₂) (hdays : days₁ = days₂) :
    runSimulation cfg₁ days₁ = runSimulation cfg₂ days₂ := by
  rw [hcfg, hdays]

/-- A concrete one-day input used by the C8 witness. -/
def dayInput1 : DayInput where
  date := "2017-02-01"
  spot := 300
  isWithdrawalDate := false
  isRollDay := false
  chain := []
  optionPremium := 2

/-- C8 witness: two runs of the default configuration over the same
one-day stream coincide. -/
theorem runSimulation_deterministic_witness :
    runSimulation cfgDefault [dayInput1] =
      runSimulation cfgDefault [dayInput1] :=
  runSimulation_deterministic cfgDefault cfgDefault [dayInput1] [dayInput1]
    rfl rfl

/-! ## Frontend: Dashboard.js interest-data pipeline (C9)

Embedding of the interest-extraction part of `processSimulationData`
(`frontend/src/pages/Dashboard.js`, lines 252-258 and 563-667).  A JS
daily-record object is a key-ordered field list; `none` models a JSON
`null` value. -/

/-- A parsed JS record object: fields in insertion order, `null` as
`none`. -/
structure JsRecord where
  fields : List (String × Option ℚ)
deriving DecidableEq

/-- The exhaustive fallback list of Dashboard.js lines 575-592. -/
def possibleInterestFields : List String :=
  ["Interest_Paid", "Interests_Paid", "interest_paid", "interests_paid",
   "InterestPaid", "InterestsPaid", "Interest_Costs", "interest_costs",
   "Margin_Interest", "margin_interest", "MarginInterest", "Interest",
   "interest", "Interest_Rate_Cost", "Interest_Expense", "interest_expense"]

/-- `field in values && values[field] !== null` then take the value. -/
def lookupNonNull (values : JsRecord) (key : String) : Option ℚ :=
  match values.fields.lookup key with
  | some (some v) => some v
  | _ => none

/-- The `for (const field of possibleFields)` loop (lines 595-601):
first field present with a non-null value wins. -/
def tryInterestFields : List String → JsRecord → Option ℚ
  | [], _ => none
  | f :: rest, values =>
    match lookupNonNull values f with
    | some v => some v
    | none => tryInterestFields rest values

/-- `key.toLowerCase()` of the generic search. -/
def jsToLower (s : String) : String :=
  String.mk (s.toList.map Char.toLower)

/-- The generic fallback search (lines 604-612): first key whose
lower-cased name contains "interest" with a non-null value. -/
def genericInterestSearch (values : JsRecord) : Option ℚ :=
  match values.fields.find? (fun kv =>
      containsSub (jsToLower kv.1) "interest" && kv.2.isSome) with
  | some kv => kv.2
  | none => none

/-- `Interest_Paid: interestValue || 0` (line 616). -/
def getInterestValue (values : JsRecord) : ℚ :=
  (match tryInterestFields possibleInterestFields values with
   | some v => some v
   | none => genericInterestSearch values).getD 0

/-- Dashboard.js line 255: `const USE_ONLY_REAL_DATA = true;`. -/
def USE_ONLY_REAL_DATA : Bool := true

/-- `.sort((a, b) => new Date(a.date) - new Date(b.date))` on ISO date
strings, where lexicographic and chronological order agree. -/
def sortByDate (l : List (String × ℚ)) : List (String × ℚ) :=
  l.mergeSort (fun a b => a.1 ≤ b.1)

/-- Date-string sort used to pick the first ten dates of the synthetic
branch. -/
def sortDateStrings (l : List String) : List String :=
  l.mergeSort (fun a b => a ≤ b)

/-- The interest pipeline of `processSimulationData` (lines 563-667):
extract per-day interest via the fallback list and generic search; if
some value is non-zero keep only the non-zero entries; otherwise, when
synthetic data is allowed and records exist, fabricate ten random
values (`Math.random() * 50 + 10`, modelled by the oracle `rand`), else
keep the full real series including zeros; finally sort by date and
total. -/
def processInterestData (useOnlyRealData : Bool) (rand : ℕ → ℚ)
    (entries : List (String × JsRecord)) : List (String × ℚ) × ℚ :=
  let interestData := entries.map (fun e => (e.1, getInterestValue e.2))
  let hasNonZero := interestData.any (fun item => decide (item.2 ≠ 0))
  let filtered :=
    if hasNonZero then
      interestData.filter (fun item => decide (item.2 ≠ 0))
    else if !useOnlyRealData && !entries.isEmpty then
      ((sortDateStrings (entries.map Prod.fst)).take 10).mapIdx
        (fun i dte => (dte, rand i * 50 + 10))
    else
      interestData
  let sorted := sortByDate filtered
  (sorted, (sorted.map Prod.snd).sum)

/-- The interest pipeline as compiled: the flag constant is `true`. -/
def processSimulationDataInterest (rand : ℕ → ℚ)
    (entries : List (String × JsRecord)) : List (String × ℚ) × ℚ :=
  processInterestData USE_ONLY_REAL_DATA rand entries

/-- C9: with `USE_ONLY_REAL_DATA = true` the `Math.random` synthetic
branch of `processSimulationData` is unreachable — the produced
interest chart data is independent of the random oracle, so two calls
on the same input set identical chart data; and when no non-zero
interest value is found, the full real series (zeros included, sorted
by date) is used. -/
theorem processSimulationDataInterest_deterministic
    (rand₁ rand₂ : ℕ → ℚ) (entries : List (String × JsRecord)) :
    processSimulationDataInterest rand₁ entries =
      processSimulationDataInterest rand₂ entries ∧
    ((entries.map (fun e => (e.1, getInterestValue e.2))).all
        (fun item => decide (item.2 = 0)) = true →
      (processSimulationDataInterest rand₁ entries).1 =
        sortByDate (entries.map (fun e => (e.1, getInterestValue e.2)))) := by
  constructor
  · simp [processSimulationDataInterest, processInterestData,
      USE_ONLY_REAL_DATA]
  · intro hall
    simp only [processSimulationDataInterest, processInterestData,
      USE_ONLY_REAL_DATA, Bool.not_true, Bool.false_and, Bool.false_eq_true,
      if_false]
    split
    · rename_i htrue
      exfalso
      rw [List.any_eq_true] at htrue
      obtain ⟨item, hmem, hne⟩ := htrue
      exact of_decide_eq_true hne
        (of_decide_eq_true (List.all_eq_true.mp hall item hmem))
    · rfl

/-- Concrete all-zero-interest response used by the C9 witness. -/
def entriesC9 : List (String × JsRecord) :=
  [("2017-02-02", JsRecord.mk
      [("Portfolio_Value", some 100), ("Interest_Paid", some 0)]),
   ("2017-02-01", JsRecord.mk
      [("Portfolio_Value", some 100), ("Interest_Paid", none)])]

/-- C9 witness: two different oracles give identical chart data on a
concrete all-zero-interest input, and the full real series is used. -/
theorem processSimulationDataInterest_deterministic_witness :
    processSimulationDataInterest (fun _ => 1) entriesC9 =
      processSimulationDataInterest (fun _ => 2) entriesC9 ∧
    (processSimulationDataInterest (fun _ => 1) entriesC9).1 =
      sortByDate (entriesC9.map (fun e => (e.1, getInterestValue e.2))) :=
  ⟨(processSimulationDataInterest_deterministic (fun _ => 1) (fun _ => 2)
      entriesC9).1,
   (processSimulationDataInterest_deterministic (fun _ => 1) (fun _ => 2)
      entriesC9).2 (by decide)⟩

/-! ## Frontend: simulationService.js payload defaulting (C10) -/

/-- The JS states `config.initialBalance` can be in at lines 90-103 of
`frontend/src/services/simulationService.js`: `undefined`, `null`, or a
present value whose `parseFloat` result is either `NaN` (`none`) or a
number. -/
inductive JsInitialBalance where
  | undef
  | null
  | value (parsed : Option ℚ)
deriving DecidableEq

/-- `initial_balance` defaulting of `runSimulation` (lines 90-103):
present and non-null values are parsed; a finite parse that is
`> 0` is used, anything else falls back to `500000.0`. -/
def initialBalancePayload : JsInitialBalance → ℚ
  | JsInitialBalance.undef => 500000
  | JsInitialBalance.null => 500000
  | JsInitialBalance.value none => 500000
  | JsInitialBalance.value (some q) => if 0 < q then q else 500000

/-- C10: the POST payload always carries a strictly positive
`initial_balance`: the parsed value when `config.initialBalance` parses
to a positive number, and the default `500000.0` when it is missing,
null, non-numeric, or not strictly positive. -/
theorem initialBalancePayload_spec :
    (∀ x, 0 < initialBalancePayload x) ∧
    (∀ q, 0 < q →
      initialBalancePayload (JsInitialBalance.value (some q)) = q) ∧
    initialBalancePayload JsInitialBalance.undef = 500000 ∧
    initialBalancePayload JsInitialBalance.null = 500000 ∧
    initialBalancePayload (JsInitialBalance.value none) = 500000 ∧
    (∀ q, ¬ 0 < q →
      initialBalancePayload (JsInitialBalance.value (some q)) = 500000) := by
  refine ⟨?_, ?_, rfl, rfl, rfl, ?_⟩
  · intro x
    cases x with
    | undef => norm_num [initialBalancePayload]
    | null => norm_num [initialBalancePayload]
    | value p =>
      cases p with
      | none => norm_num [initialBalancePayload]
      | some q =>
        by_cases h : 0 < q
        · simp [initialBalancePayload, h]
        · simp only [initialBalancePayload, if_neg h]
          norm_num
  · intro q hq
    simp [initialBalancePayload, hq]
  · intro q hq
    simp [initialBalancePayload, hq]

/-- C10 witness: a positive balance passes through, a negative one and
an absent one fall back to the default. -/
theorem initialBalancePayload_spec_witness :
    0 < initialBalancePayload (JsInitialBalance.value (some 250000)) ∧
    initialBalancePayload (JsInitialBalance.value (some 250000)) = 250000 ∧
    initialBalancePayload (JsInitialBalance.value (some (-5))) = 500000 :=
  ⟨initialBalancePayload_spec.1 (JsInitialBalance.value (some 250000)),
   initialBalancePayload_spec.2.1 250000 (by norm_num),
   initialBalancePayload_spec.2.2.2.2.2 (-5) (by norm_num)⟩

end TradingHub
